import Mathlib

/-!
# Verification of the Dataset Ingestion & Aggregation Engine

A shallow embedding of the chemical-equipment-visualizer backend
(`src/backend/api/views.py`, `src/backend/api/models.py`) in Lean 4, together
with proofs and refutations of the specification's claims about it.

Modelling conventions:
* Machine floats are modelled by exact rationals (`Rat`).  The float value
  `NaN` (which pandas produces as the mean of an empty column, and which
  Python's `round` maps to itself) is modelled by `none` in an `Option Rat`.
* An uploaded CSV is modelled after what `pd.read_csv` hands to the view: a
  filename, a list of column headers and a list of rows, where each cell is
  already typed (`num` for a cell pandas parsed as a number, `text` for a
  string cell, `na` for a missing cell / NaN).
* The Django ORM store is a pair of lists (datasets and equipment rows)
  together with the auto-increment counters for the two primary keys.
* `timezone.now()` / `auto_now_add` timestamps are natural numbers supplied
  by the caller as an explicit clock argument.
* The equipment CRUD handlers (`get_equipment_list`, `add_equipment`,
  `equipment_detail`) and `export_csv` are referenced by `urls.py` but their
  code is not part of the source tree; they are modelled from the spec
  (sections 4.3-4.5) and are clearly marked as such below.
-/

/-- One CSV cell as typed by `pd.read_csv`: a parsed number, a missing
value (pandas `NaN`), or a string. -/
inductive Cell where
  | num (q : Rat)
  | na
  | text (s : String)
deriving DecidableEq, Repr

/-- One data row of the uploaded table, aligned positionally with the
(stripped) header list. -/
abbrev Row := List Cell

/-- An uploaded CSV file as seen by `upload_csv` after `pd.read_csv`. -/
structure CsvFile where
  filename : String
  headers : List String
  rows : List Row
deriving DecidableEq, Repr

/-- `api.models.DatasetUpload`.  `avg_*` fields are `Option Rat`, `none`
standing for the float `NaN`. -/
structure Dataset where
  id : Nat
  owner : Nat
  filename : String
  uploaded_at : Nat
  total_equipment : Nat
  avg_flowrate : Option Rat
  avg_pressure : Option Rat
  avg_temperature : Option Rat
  type_distribution : List (Cell × Nat)
  raw_data : List Row
deriving DecidableEq, Repr

/-- `api.models.Equipment`.  `dataset` is the foreign key to
`DatasetUpload.id`; numeric fields are `Option Rat` (`none` = NaN). -/
structure EquipmentRow where
  id : Nat
  dataset : Nat
  name : Cell
  equipment_type : Cell
  flowrate : Option Rat
  pressure : Option Rat
  temperature : Option Rat
  recorded_at : Nat
deriving DecidableEq, Repr

/-- The relational store: the two tables plus their auto-increment
primary-key counters. -/
structure Store where
  datasets : List Dataset
  equipment : List EquipmentRow
  nextDatasetId : Nat
  nextEquipmentId : Nat
deriving DecidableEq, Repr

def emptyStore : Store := { datasets := [], equipment := [], nextDatasetId := 1, nextEquipmentId := 1 }

/-! ## Column reconciliation (`upload_csv`, views.py lines 124-156) -/

/-- The `column_mapping` dict of `upload_csv`: canonical field name to its
accepted synonyms, in priority order. -/
def column_mapping : List (String × List String) :=
  [("Equipment Name", ["Equipment Name", "equipment_name", "Name", "name"]),
   ("Type", ["Type", "type", "Equipment Type", "equipment_type"]),
   ("Flowrate", ["Flowrate", "flowrate", "Flow Rate", "flow_rate"]),
   ("Pressure", ["Pressure", "pressure"]),
   ("Temperature", ["Temperature", "temperature", "Temp", "temp"])]

/-- Python's `str.strip` (used by `df.columns.str.strip()`), written over
the character list so that it is kernel-computable. -/
def pyStrip (s : String) : String :=
  ⟨((s.data.dropWhile Char.isWhitespace).reverse.dropWhile Char.isWhitespace).reverse⟩

/-- Python's `str.endswith`, written over the character lists. -/
def strEndsWith (s suff : String) : Bool := suff.data.isSuffixOf s.data

/-- `df.columns.str.strip()`. -/
def strippedHeaders (f : CsvFile) : List String := f.headers.map pyStrip

/-- The `actual_columns` dict: for each canonical name, the first synonym
present among the (stripped) headers. -/
def actual_columns (headers : List String) : List (String × String) :=
  column_mapping.filterMap (fun p =>
    (p.2.find? (fun v => headers.contains v)).map (fun v => (p.1, v)))

/-- The `required` list of `upload_csv`. -/
def required_columns : List String :=
  ["Equipment Name", "Type", "Flowrate", "Pressure", "Temperature"]

/-- `missing = [col for col in required if col not in actual_columns]`. -/
def missing_columns (headers : List String) : List String :=
  required_columns.filter (fun c => ((actual_columns headers).lookup c).isNone)

/-- Access `df[std]` after the rename: the column of cells under the header
that was reconciled to the canonical name `std`.  (The `getD` defaults are
never reached when the column exists and rows are rectangular.) -/
def getCol (f : CsvFile) (std : String) : List Cell :=
  let hs := strippedHeaders f
  let actual := ((actual_columns hs).lookup std).getD ""
  let idx := hs.indexOf actual
  f.rows.map (fun r => r.getD idx Cell.na)

/-! ## Statistics (`upload_csv`, views.py lines 158-165) -/

def Cell.isText : Cell → Bool
  | .text _ => true
  | _ => false

def Cell.asNum : Cell → Option Rat
  | .num q => some q
  | _ => none

/-- `Series.mean()` restricted to a column without string cells: pandas
skips NaN cells, and the mean of no values is NaN (`none`).  (A column
containing a string cell has object dtype and `.mean()` raises `TypeError`;
that case is handled separately in `parse_upload`.) -/
def series_mean (cells : List Cell) : Option Rat :=
  let qs := cells.filterMap Cell.asNum
  if qs.isEmpty then none else some (qs.sum / (qs.length : Rat))

/-- Round half to even to an integer (what Python's `round` does on the
exact value of its argument). -/
def round_half_even (x : Rat) : Int :=
  let f := ⌊x⌋
  let frac := x - f
  if frac < 1/2 then f
  else if 1/2 < frac then f + 1
  else if f % 2 = 0 then f else f + 1

/-- Python's `round(x, 2)` on an exactly-representable float value. -/
def pyround2 (x : Rat) : Rat := (round_half_even (x * 100) : Rat) / 100

/-- The distinct cells of a list, first occurrence first. -/
def distinctCells (l : List Cell) : List Cell :=
  l.foldl (fun acc c => if acc.contains c then acc else acc ++ [c]) []

/-- `df['Type'].value_counts().to_dict()` as a finite map (association
list): each distinct value with its number of occurrences.  `value_counts`
lists keys by descending frequency; no behaviour in the source depends on
that order, and the persisted JSON object is equal as a map. -/
def value_counts (cells : List Cell) : List (Cell × Nat) :=
  (distinctCells cells).map (fun c => (c, cells.count c))

/-- Everything `upload_csv` computes before touching the database. -/
structure ParsedUpload where
  total_equipment : Nat
  avg_flowrate : Option Rat
  avg_pressure : Option Rat
  avg_temperature : Option Rat
  type_distribution : List (Cell × Nat)
  nameCol : List Cell
  typeCol : List Cell
  flowCol : List Cell
  pressureCol : List Cell
  temperatureCol : List Cell
  raw : List Row
deriving DecidableEq, Repr

inductive ParseFailure where
  /-- `pd.errors.EmptyDataError`: the file had no columns at all. -/
  | emptyData
  /-- The 400 response naming the missing canonical columns. -/
  | missingCols (missing : List String)
  /-- `Series.mean()` raised `TypeError` because a numeric column contains
  a cell pandas could not parse as a number (object dtype); caught by the
  generic `except` and surfaced as a 500. -/
  | typeError
deriving DecidableEq, Repr

/-- The pure prefix of `upload_csv` (views.py lines 120-165): read the
table, strip and reconcile the headers, check for missing columns, compute
the summary statistics.  No store access happens here; in the source every
failure in this region occurs before the first ORM write. -/
def parse_upload (f : CsvFile) : Except ParseFailure ParsedUpload :=
  if f.headers.isEmpty then .error .emptyData
  else
    let hs := strippedHeaders f
    let missing := missing_columns hs
    if ¬ missing.isEmpty then .error (.missingCols missing)
    else
      let nameCol := getCol f "Equipment Name"
      let typeCol := getCol f "Type"
      let flowCol := getCol f "Flowrate"
      let pressureCol := getCol f "Pressure"
      let temperatureCol := getCol f "Temperature"
      if flowCol.any Cell.isText || pressureCol.any Cell.isText
          || temperatureCol.any Cell.isText then
        .error .typeError
      else
        .ok { total_equipment := f.rows.length,
              avg_flowrate := (series_mean flowCol).map pyround2,
              avg_pressure := (series_mean pressureCol).map pyround2,
              avg_temperature := (series_mean temperatureCol).map pyround2,
              type_distribution := value_counts typeCol,
              nameCol := nameCol, typeCol := typeCol, flowCol := flowCol,
              pressureCol := pressureCol, temperatureCol := temperatureCol,
              raw := f.rows }

/-! ## Persistence (`upload_csv` lines 167-197, `models.py`) -/

/-- The list of `Equipment` objects built row by row and passed to
`bulk_create`; ids are assigned consecutively by the store. -/
def mkEquipmentRows (baseId dsId now : Nat) (p : ParsedUpload) : List EquipmentRow :=
  (List.range p.total_equipment).map (fun i =>
    { id := baseId + i, dataset := dsId,
      name := p.nameCol.getD i Cell.na,
      equipment_type := p.typeCol.getD i Cell.na,
      flowrate := (p.flowCol.getD i Cell.na).asNum,
      pressure := (p.pressureCol.getD i Cell.na).asNum,
      temperature := (p.temperatureCol.getD i Cell.na).asNum,
      recorded_at := now })

/-- `order_by('-uploaded_at')`.  The source specifies no secondary sort
key; SQLite returns rows with equal keys in table order, which the stable
insertion sort with this comparator reproduces. -/
def sortByUploadedDesc (l : List Dataset) : List Dataset :=
  l.insertionSort (fun a b => b.uploaded_at ≤ a.uploaded_at)

/-- The `ids_to_keep` list of `cleanup_old_uploads`: the ids of the first
`keep_count` datasets of the owner in `-uploaded_at` order. -/
def keep_ids (st : Store) (user keep_count : Nat) : List Nat :=
  ((sortByUploadedDesc (st.datasets.filter (fun d => d.owner == user))).take
    keep_count).map (·.id)

/-- The ids of the owner's datasets that `cleanup_old_uploads` deletes
(`filter(user=user).exclude(id__in=ids_to_keep)`). -/
def doomed_ids (st : Store) (user keep_count : Nat) : List Nat :=
  (st.datasets.filter
    (fun d => d.owner == user && !((keep_ids st user keep_count).contains d.id))).map (·.id)

/-- `DatasetUpload.cleanup_old_uploads` (models.py lines 42-48): if the
owner has more than `keep_count` datasets, keep the first `keep_count` of
them in `-uploaded_at` order and delete the owner's other datasets,
cascading to their equipment rows. -/
def cleanup_old_uploads (st : Store) (user keep_count : Nat) : Store :=
  if keep_count < (sortByUploadedDesc (st.datasets.filter (fun d => d.owner == user))).length then
    { st with
      datasets := st.datasets.filter
        (fun d => !(d.owner == user && !((keep_ids st user keep_count).contains d.id))),
      equipment := st.equipment.filter
        (fun e => !((doomed_ids st user keep_count).contains e.dataset)) }
  else st

inductive UploadResult where
  /-- 400 `'File must be a CSV'`. -/
  | notCsv
  /-- 400 `'CSV file is empty'` (from `pd.errors.EmptyDataError`). -/
  | emptyFile
  /-- 400 `'Missing required columns: ...'`. -/
  | missingColumns (missing : List String)
  /-- 500 `'Error processing file: ...'` (generic `except`). -/
  | processingError
  /-- 201 with the dataset id and the computed summary. -/
  | created (datasetId : Nat) (p : ParsedUpload)
deriving DecidableEq, Repr

def UploadResult.isCreated : UploadResult → Bool
  | .created _ _ => true
  | _ => false

/-- `upload_csv` (views.py lines 101-231): the full handler.  On success
the dataset row, its equipment rows, and the retention cleanup are applied
in that order, exactly as the source issues its ORM calls. -/
def upload_csv (st : Store) (user now : Nat) (f : CsvFile) : UploadResult × Store :=
  if ¬ (strEndsWith f.filename ".csv") then (.notCsv, st)
  else
    match parse_upload f with
    | .error .emptyData => (.emptyFile, st)
    | .error (.missingCols m) => (.missingColumns m, st)
    | .error .typeError => (.processingError, st)
    | .ok p =>
      let d : Dataset := { id := st.nextDatasetId, owner := user, filename := f.filename,
                           uploaded_at := now, total_equipment := p.total_equipment,
                           avg_flowrate := p.avg_flowrate, avg_pressure := p.avg_pressure,
                           avg_temperature := p.avg_temperature,
                           type_distribution := p.type_distribution, raw_data := p.raw }
      let st1 : Store :=
        { st with
          datasets := st.datasets ++ [d]
          nextDatasetId := st.nextDatasetId + 1 }
      let rows := mkEquipmentRows st1.nextEquipmentId d.id now p
      let st2 : Store :=
        { st1 with
          equipment := st1.equipment ++ rows
          nextEquipmentId := st1.nextEquipmentId + p.total_equipment }
      (.created d.id p, cleanup_old_uploads st2 user 5)

/-- The run of `upload_csv` in which `Equipment.objects.bulk_create` fails
with a storage error.  `upload_csv` opens no transaction, so
`DatasetUpload.objects.create` has already committed on its own; the
generic `except` handler returns a 500 without removing the dataset row. -/
def upload_csv_rows_fail (st : Store) (user now : Nat) (f : CsvFile) : UploadResult × Store :=
  if ¬ (strEndsWith f.filename ".csv") then (.notCsv, st)
  else
    match parse_upload f with
    | .error .emptyData => (.emptyFile, st)
    | .error (.missingCols m) => (.missingColumns m, st)
    | .error .typeError => (.processingError, st)
    | .ok p =>
      let d : Dataset := { id := st.nextDatasetId, owner := user, filename := f.filename,
                           uploaded_at := now, total_equipment := p.total_equipment,
                           avg_flowrate := p.avg_flowrate, avg_pressure := p.avg_pressure,
                           avg_temperature := p.avg_temperature,
                           type_distribution := p.type_distribution, raw_data := p.raw }
      let st1 : Store :=
        { st with
          datasets := st.datasets ++ [d]
          nextDatasetId := st.nextDatasetId + 1 }
      (.processingError, st1)

/-! ## Read and delete handlers present in the source -/

/-- `DatasetUpload.objects.get(id=dataset_id, user=request.user)`, with
`DoesNotExist` as `none`.  A dataset that exists under another owner and a
dataset id that does not exist at all both produce `none`. -/
def getOwned (st : Store) (user dsId : Nat) : Option Dataset :=
  st.datasets.find? (fun d => d.id == dsId && d.owner == user)

/-- `dataset.equipment_list.all()`. -/
def datasetEquipment (st : Store) (dsId : Nat) : List EquipmentRow :=
  st.equipment.filter (fun e => e.dataset == dsId)

/-- `get_dataset_summary` (views.py lines 236-267): the persisted dataset
fields plus the attached equipment rows, or `none` for the constant 404
`'Dataset not found'` response. -/
def get_dataset_summary (st : Store) (user dsId : Nat) :
    Option (Dataset × List EquipmentRow) :=
  (getOwned st user dsId).map (fun d => (d, datasetEquipment st d.id))

/-- `delete_dataset` (views.py lines 284-294): delete the dataset and (by
`on_delete=CASCADE`) its equipment rows; `false` is the constant 404
`'Dataset not found'` response. -/
def delete_dataset (st : Store) (user dsId : Nat) : Bool × Store :=
  match getOwned st user dsId with
  | none => (false, st)
  | some d =>
    (true, { st with datasets := st.datasets.filter (fun x => !(x.id == d.id)),
                     equipment := st.equipment.filter (fun e => !(e.dataset == d.id)) })

/-! ## Equipment CRUD and date filtering

`urls.py` routes `datasets/<id>/equipment/...` to `views.get_equipment_list`,
`views.add_equipment` and `views.equipment_detail`, but those handler bodies
are not part of the source tree.  They are modelled from the spec,
sections 4.3 (Aggregator), 4.4 (add_row / update_row / delete_row) and
4.5 (Query Filter), and every definition in this section says so. -/

/-- Modelled from the spec (§4.3): decimal rounding to 2 places, ties away
from zero ("half-up rounding"). -/
def round_half_up (x : Rat) : Rat :=
  if 0 ≤ x then ((⌊x * 100 + 1/2⌋ : Int) : Rat) / 100
  else -(((⌊-(x * 100) + 1/2⌋ : Int) : Rat) / 100)

/-- Modelled from the spec (§4.3): the summary the Aggregator produces. -/
structure SpecSummary where
  count : Nat
  mean_flowrate : Rat
  mean_pressure : Rat
  mean_temperature : Rat
  distribution : List (Cell × Nat)
deriving DecidableEq, Repr

/-- Modelled from the spec (§4.3): the mean of a field, `0.0` for the
empty set, otherwise the arithmetic mean rounded half-up to 2 places. -/
def spec_mean (vals : List Rat) : Rat :=
  if vals.isEmpty then 0 else round_half_up (vals.sum / (vals.length : Rat))

/-- Modelled from the spec (§4.3): `Aggregator.compute` over a row set.
NaN-valued cells (absent from normalised records) are skipped. -/
def spec_aggregate (rows : List EquipmentRow) : SpecSummary :=
  { count := rows.length,
    mean_flowrate := spec_mean (rows.filterMap (·.flowrate)),
    mean_pressure := spec_mean (rows.filterMap (·.pressure)),
    mean_temperature := spec_mean (rows.filterMap (·.temperature)),
    distribution := value_counts (rows.map (·.equipment_type)) }

/-- Modelled from the spec (§4.4): after a row mutation the dataset's
aggregate fields are recomputed from the complete attached row set. -/
def recompute_aggregates (st : Store) (dsId : Nat) : Store :=
  let s := spec_aggregate (datasetEquipment st dsId)
  { st with datasets := st.datasets.map (fun d =>
      if d.id == dsId then
        { d with total_equipment := s.count,
                 avg_flowrate := some s.mean_flowrate,
                 avg_pressure := some s.mean_pressure,
                 avg_temperature := some s.mean_temperature,
                 type_distribution := s.distribution }
      else d) }

/-- Modelled from the spec (§4.4 `add_row`): `views.add_equipment`, absent
from the source tree.  Appends one row to an owned dataset and recomputes
the aggregates; `none` is the `NotFound` outcome. -/
def add_equipment (st : Store) (user dsId : Nat) (nm ty : String)
    (flow press temp : Rat) (now : Nat) : Option Nat × Store :=
  match getOwned st user dsId with
  | none => (none, st)
  | some d =>
    let e : EquipmentRow :=
      { id := st.nextEquipmentId, dataset := d.id, name := .text nm,
        equipment_type := .text ty, flowrate := some flow,
        pressure := some press, temperature := some temp, recorded_at := now }
    let st1 : Store :=
      { st with
        equipment := st.equipment ++ [e]
        nextEquipmentId := st.nextEquipmentId + 1 }
    (some e.id, recompute_aggregates st1 d.id)

/-- Modelled from the spec (§4.4 `update_row`): the PUT branch of
`views.equipment_detail`, absent from the source tree.  Replaces the
mutable fields of one owned row and recomputes the aggregates; `false` is
the `NotFound` outcome. -/
def update_equipment (st : Store) (user dsId eqId : Nat) (nm ty : String)
    (flow press temp : Rat) : Bool × Store :=
  match getOwned st user dsId with
  | none => (false, st)
  | some d =>
    if (datasetEquipment st d.id).any (fun e => e.id == eqId) then
      let st1 : Store :=
        { st with equipment := st.equipment.map (fun e =>
            if e.id == eqId && e.dataset == d.id then
              { e with name := .text nm, equipment_type := .text ty,
                       flowrate := some flow, pressure := some press,
                       temperature := some temp }
            else e) }
      (true, recompute_aggregates st1 d.id)
    else (false, st)

/-- Modelled from the spec (§4.4 `delete_row`): the DELETE branch of
`views.equipment_detail`, absent from the source tree.  Removes one owned
row and recomputes the aggregates; `false` is the `NotFound` outcome. -/
def delete_equipment (st : Store) (user dsId eqId : Nat) : Bool × Store :=
  match getOwned st user dsId with
  | none => (false, st)
  | some d =>
    if (datasetEquipment st d.id).any (fun e => e.id == eqId) then
      let st1 : Store :=
        { st with equipment :=
            st.equipment.filter (fun e => !(e.id == eqId && e.dataset == d.id)) }
      (true, recompute_aggregates st1 d.id)
    else (false, st)

/-- Modelled from the spec (§4.5 Query Filter): `views.get_equipment_list`,
absent from the source tree.  Returns the owned dataset's rows whose
recorded timestamp lies in the inclusive range `[start, stop]`, plus a
freshly aggregated summary over that subset, without mutating the store;
`none` is the `NotFound` outcome. -/
def get_equipment_list (st : Store) (user dsId start stop : Nat) :
    Option (List EquipmentRow × SpecSummary) :=
  (getOwned st user dsId).map (fun d =>
    let rows := (datasetEquipment st d.id).filter
      (fun e => start ≤ e.recorded_at && e.recorded_at ≤ stop)
    (rows, spec_aggregate rows))

/-! ## Well-formedness of the store -/

/-- Primary keys behave like Django's: dataset ids are below the
auto-increment counter and distinct, and every equipment row references an
existing dataset. -/
def WfIds (st : Store) : Prop :=
  (∀ d ∈ st.datasets, d.id < st.nextDatasetId) ∧
  (st.datasets.map (·.id)).Nodup ∧
  (∀ e ∈ st.equipment, ∃ d ∈ st.datasets, e.dataset = d.id)

/-- The invariant of claim C2: every dataset's persisted `total_equipment`
equals the number of equipment rows currently attached to it. -/
def WfCounts (st : Store) : Prop :=
  ∀ d ∈ st.datasets, d.total_equipment = (datasetEquipment st d.id).length

instance : DecidablePred WfIds := fun st => by
  unfold WfIds; infer_instance

instance : DecidablePred WfCounts := fun st => by
  unfold WfCounts; infer_instance

/-! ## Concrete sample inputs -/

/-- A sample data row, aligned with the header order
`[name, Flow Rate, Pressure, Temp, Type]`. -/
def sampleRow (nm ty : String) (flow press temp : Rat) : Row :=
  [.text nm, .num flow, .num press, .num temp, .text ty]

/-- A valid 3-row upload whose headers use recognised synonyms. -/
def sampleFile : CsvFile :=
  { filename := "plant.csv",
    headers := ["equipment_name", "Flow Rate", "Pressure", "Temp", "Type"],
    rows := [sampleRow "P-101" "Pump" 10 2 25,
             sampleRow "C-201" "Compressor" 20 8 40,
             sampleRow "P-102" "Pump" 30 5 30] }

/-- The spec's own example header set: `equip_name` is not among the
recognised synonyms for `Equipment Name`. -/
def specExampleFile : CsvFile :=
  { filename := "spec.csv",
    headers := ["equip_name", "Flow Rate", "Pressure", "Temp", "Type"],
    rows := [sampleRow "A" "Pump" 1 1 1,
             sampleRow "B" "Pump" 2 2 2,
             sampleRow "C" "Valve" 3 3 3] }

/-- A table with all five canonical headers and zero data rows (a
header-only CSV file). -/
def headerOnlyFile : CsvFile :=
  { filename := "empty.csv",
    headers := ["Equipment Name", "Type", "Flowrate", "Pressure", "Temperature"],
    rows := [] }


deriving instance DecidableEq for Except

/-- A non-CSV upload used as a concrete input. -/
def txtFile : CsvFile :=
  { filename := "readings.txt",
    headers := ["Equipment Name", "Type", "Flowrate", "Pressure", "Temperature"],
    rows := [sampleRow "P-101" "Pump" 10 2 25] }

/-- C10: an upload whose filename does not end in `.csv` is rejected with
the `'File must be a CSV'` error before any parsing or persistence, and the
stored datasets and rows are unchanged. -/
theorem upload_rejects_non_csv_filename (st : Store) (user now : Nat) (f : CsvFile)
    (h : strEndsWith f.filename ".csv" = false) :
    upload_csv st user now f = (.notCsv, st) := by
  unfold upload_csv
  rw [h]
  simp

theorem upload_rejects_non_csv_filename_witness :
    strEndsWith txtFile.filename ".csv" = false ∧
      upload_csv emptyStore 1 0 txtFile = (.notCsv, emptyStore) :=
  ⟨by decide, upload_rejects_non_csv_filename emptyStore 1 0 txtFile (by decide)⟩

/-- C6, counterexample: the spec's example header set
`["equip_name","Flow Rate","Pressure","Temp","Type"]` does NOT ingest
successfully: `equip_name` is not among the recognised synonyms of
`Equipment Name` (`Equipment Name`, `equipment_name`, `Name`, `name`), so
the upload fails with the missing-columns error naming `Equipment Name`,
rather than succeeding with `count = 3`. -/
theorem spec_example_headers_rejected :
    parse_upload specExampleFile = .error (.missingCols ["Equipment Name"]) ∧
      upload_csv emptyStore 1 0 specExampleFile =
        (.missingColumns ["Equipment Name"], emptyStore) := by
  constructor
  · decide
  · decide

/-- C1, counterexample: on a table with headers but zero data rows the
statistics block computes `NaN` for each of the three means (pandas
`Series.mean` of an empty column), not `0.0`.  The distribution is empty
and no error (in particular no division by zero) is raised, but the
summary is not the all-`0.0` summary the claim asserts. -/
theorem aggregator_empty_is_nan_not_zero :
    parse_upload headerOnlyFile =
      .ok { total_equipment := 0, avg_flowrate := none, avg_pressure := none,
            avg_temperature := none, type_distribution := [], nameCol := [],
            typeCol := [], flowCol := [], pressureCol := [], temperatureCol := [],
            raw := [] } ∧
      parse_upload headerOnlyFile ≠
        .ok { total_equipment := 0, avg_flowrate := some 0, avg_pressure := some 0,
              avg_temperature := some 0, type_distribution := [], nameCol := [],
              typeCol := [], flowCol := [], pressureCol := [], temperatureCol := [],
              raw := [] } := by
  constructor
  · decide
  · decide

/-- C1, amended: for any upload whose (stripped) headers reconcile all five
canonical columns and whose table has zero data rows, the aggregation runs
without error (no division by zero) and yields `NaN` (`none`) for each of
the three means — not `0.0` — together with an empty type distribution. -/
theorem aggregator_empty_rows (f : CsvFile)
    (hh : f.headers ≠ []) (hm : missing_columns (strippedHeaders f) = [])
    (hr : f.rows = []) :
    parse_upload f =
      .ok { total_equipment := 0, avg_flowrate := none, avg_pressure := none,
            avg_temperature := none, type_distribution := [], nameCol := [],
            typeCol := [], flowCol := [], pressureCol := [], temperatureCol := [],
            raw := [] } := by
  have hcol : ∀ std, getCol f std = [] := by
    intro std
    unfold getCol
    rw [hr]
    rfl
  have h1 : f.headers.isEmpty = false := by
    cases hcl : f.headers with
    | nil => exact absurd hcl hh
    | cons a l => rfl
  simp [parse_upload, h1, hm, hcol, hr, series_mean, value_counts, distinctCells]

theorem aggregator_empty_rows_witness :
    headerOnlyFile.headers ≠ [] ∧
      missing_columns (strippedHeaders headerOnlyFile) = [] ∧
      headerOnlyFile.rows = [] ∧
      parse_upload headerOnlyFile =
        .ok { total_equipment := 0, avg_flowrate := none, avg_pressure := none,
              avg_temperature := none, type_distribution := [], nameCol := [],
              typeCol := [], flowCol := [], pressureCol := [], temperatureCol := [],
              raw := [] } :=
  ⟨by decide, by decide, by decide,
    aggregator_empty_rows headerOnlyFile (by decide) (by decide) (by decide)⟩

/-- C9: the code accepts a header-only table (zero data rows).
`pd.errors.EmptyDataError` only fires for a file with no columns at all, so
a header-only CSV sails past that branch, gets `NaN` means, and the view
persists a zero-row dataset and answers 201 — it is not rejected.  (On the
default SQLite backend the insert of `NaN` happens to die on the NOT NULL
constraint, because SQLite stores NaN as NULL; that accident is
backend-specific — under a configured `DATABASE_URL` backend such as
PostgreSQL the zero-row dataset is durably stored.) -/
theorem empty_table_upload_accepted :
    (upload_csv emptyStore 1 0 headerOnlyFile).1.isCreated = true ∧
      (upload_csv emptyStore 1 0 headerOnlyFile).2.datasets.map
        (fun d => (d.id, d.total_equipment)) = [(1, 0)] ∧
      (upload_csv emptyStore 1 0 headerOnlyFile).2.equipment = [] := by
  refine ⟨by decide, by decide, by decide⟩

/-- C5, counterexample: ingestion is not atomic.  `upload_csv` wraps no
transaction around its ORM calls, so `DatasetUpload.objects.create` commits
before `Equipment.objects.bulk_create` runs; in the run where the row
insert fails with a storage error, a dataset recording
`total_equipment = 3` but with zero attached rows remains durably stored —
an observable partial ingestion. -/
theorem upload_partial_on_row_insert_failure :
    (upload_csv_rows_fail emptyStore 1 0 sampleFile).1 = .processingError ∧
      (upload_csv_rows_fail emptyStore 1 0 sampleFile).2.datasets.map
        (fun d => (d.id, d.total_equipment)) = [(1, 3)] ∧
      (upload_csv_rows_fail emptyStore 1 0 sampleFile).2.equipment = [] := by
  refine ⟨by decide, by decide, by decide⟩

/-- C5, amended: every failure that `upload_csv` itself detects (bad
filename, empty file, missing columns, unparseable numeric cell) occurs
before the first ORM write, so the store is left completely unchanged;
atomicity can only be broken by a storage failure between the two separate
commits (see the counterexample). -/
theorem upload_error_leaves_store_unchanged (st : Store) (user now : Nat) (f : CsvFile)
    (h : (upload_csv st user now f).1.isCreated = false) :
    (upload_csv st user now f).2 = st := by
  unfold upload_csv at h ⊢
  by_cases hcsv : strEndsWith f.filename ".csv" = true
  · rw [hcsv] at h ⊢
    cases hp : parse_upload f with
    | ok p => rw [hp] at h; simp [UploadResult.isCreated] at h
    | error e => cases e <;> simp
  · simp only [Bool.not_eq_true] at hcsv
    rw [hcsv]
    simp

theorem upload_error_leaves_store_unchanged_witness :
    (upload_csv emptyStore 1 0 specExampleFile).1.isCreated = false ∧
      (upload_csv emptyStore 1 0 specExampleFile).2 = emptyStore :=
  ⟨by decide, upload_error_leaves_store_unchanged emptyStore 1 0 specExampleFile (by decide)⟩

def Cell.isNum : Cell → Bool
  | .num _ => true
  | _ => false

/-- The flowrate field of a parse result (`none` on failure). -/
def resultAvgFlowrate : Except ParseFailure ParsedUpload → Option Rat
  | .ok p => p.avg_flowrate
  | .error _ => none

/-- A 2-row upload whose flowrate mean is exactly 0.125, the decimal
halfway point at which half-even and half-up rounding differ.  (0 and 0.25
are exactly representable floats, and their float mean is exact, so the
rational model reproduces the float computation exactly here.) -/
def tieFile : CsvFile :=
  { filename := "tie.csv",
    headers := ["Name", "Flowrate", "Pressure", "Temperature", "Type"],
    rows := [[.text "A", .num 0, .num 1, .num 1, .text "Pump"],
             [.text "B", .num (1/4), .num 1, .num 1, .text "Pump"]] }

/-- C7, counterexample: `round(x, 2)` in Python rounds half to even, not
half up.  For the 2-row set with flowrates 0 and 0.25 the mean is 0.125;
the code stores 0.12 while the claim's half-up rounding demands 0.13. -/
theorem mean_rounded_half_even_not_half_up :
    resultAvgFlowrate (parse_upload tieFile) = some (12/100) ∧
      round_half_up (1/8) = 13/100 ∧
      resultAvgFlowrate (parse_upload tieFile) ≠ some (round_half_up (1/8)) := by
  have hext : resultAvgFlowrate (parse_upload tieFile) =
      (series_mean [Cell.num 0, Cell.num (1/4)]).map pyround2 := rfl
  have h1 : series_mean [Cell.num 0, Cell.num (1/4)] = some (1/8) := by
    simp [series_mean, Cell.asNum]
    norm_num
  have h2 : pyround2 (1/8) = 12/100 := by
    unfold pyround2 round_half_even
    have hf : ⌊(1 : Rat)/8 * 100⌋ = 12 := by
      rw [show (1 : Rat)/8 * 100 = 25/2 by norm_num]
      rw [Int.floor_eq_iff]
      norm_num
    rw [hf]
    norm_num [hf]
  have h3 : round_half_up (1/8) = 13/100 := by
    unfold round_half_up
    have hf : ⌊(1 : Rat)/8 * 100 + 1/2⌋ = 13 := by
      rw [show (1 : Rat)/8 * 100 + 1/2 = 13 by norm_num]
      exact Int.floor_intCast 13
    rw [if_pos (by norm_num)]
    rw [hf]
    norm_num
  refine ⟨?_, h3, ?_⟩
  · rw [hext, h1, Option.map_some']
    rw [h2]
  · rw [hext, h1, Option.map_some', h2, h3]
    intro hcontra
    have := Option.some.inj hcontra
    norm_num at this

/-- All-numeric columns have as many parsed values as cells. -/
theorem filterMap_asNum_length {cells : List Cell} (h : cells.all Cell.isNum = true) :
    (cells.filterMap Cell.asNum).length = cells.length := by
  induction cells with
  | nil => rfl
  | cons c l ih =>
    simp only [List.all_cons, Bool.and_eq_true] at h
    cases c with
    | num q => simp [Cell.asNum, ih h.2]
    | na => simp [Cell.isNum] at h
    | text s => simp [Cell.isNum] at h

theorem getCol_length (f : CsvFile) (std : String) :
    (getCol f std).length = f.rows.length := by
  simp [getCol]

/-- An all-numeric column contains no text cell. -/
theorem all_isNum_no_text {cells : List Cell} (h : cells.all Cell.isNum = true) :
    cells.any Cell.isText = false := by
  induction cells with
  | nil => rfl
  | cons c l ih =>
    simp only [List.all_cons, Bool.and_eq_true] at h
    cases c with
    | num q => simp [Cell.isText, ih h.2]
    | na => simp [Cell.isNum] at h
    | text s => simp [Cell.isNum] at h

/-- C7, amended: for every upload whose headers reconcile all five columns,
whose three numeric columns contain only parsed numbers, and which has at
least one row, each stored mean is the arithmetic mean of that field over
all rows rounded to 2 decimal places with round-half-to-even (Python's
`round`), not half-up. -/
theorem aggregation_means_rounded_half_even (f : CsvFile)
    (hh : f.headers ≠ [])
    (hm : missing_columns (strippedHeaders f) = [])
    (hr : f.rows ≠ [])
    (hflow : (getCol f "Flowrate").all Cell.isNum = true)
    (hpress : (getCol f "Pressure").all Cell.isNum = true)
    (htemp : (getCol f "Temperature").all Cell.isNum = true) :
    parse_upload f =
      .ok { total_equipment := f.rows.length,
            avg_flowrate := some (pyround2
              (((getCol f "Flowrate").filterMap Cell.asNum).sum / (f.rows.length : Rat))),
            avg_pressure := some (pyround2
              (((getCol f "Pressure").filterMap Cell.asNum).sum / (f.rows.length : Rat))),
            avg_temperature := some (pyround2
              (((getCol f "Temperature").filterMap Cell.asNum).sum / (f.rows.length : Rat))),
            type_distribution := value_counts (getCol f "Type"),
            nameCol := getCol f "Equipment Name", typeCol := getCol f "Type",
            flowCol := getCol f "Flowrate", pressureCol := getCol f "Pressure",
            temperatureCol := getCol f "Temperature", raw := f.rows } := by
  have h1 : f.headers.isEmpty = false := by
    cases hcl : f.headers with
    | nil => exact absurd hcl hh
    | cons a l => rfl
  have hmean : ∀ cells, cells.all Cell.isNum = true → cells.length = f.rows.length →
      series_mean cells = some (((cells.filterMap Cell.asNum)).sum / (f.rows.length : Rat)) := by
    intro cells hcall hclen
    have hlen : (cells.filterMap Cell.asNum).length = f.rows.length := by
      rw [filterMap_asNum_length hcall, hclen]
    unfold series_mean
    cases hq : cells.filterMap Cell.asNum with
    | nil =>
      exfalso
      rw [hq] at hlen
      cases hrows : f.rows with
      | nil => exact hr hrows
      | cons a l => rw [hrows] at hlen; exact absurd hlen.symm (by simp)
    | cons a l =>
      rw [hq] at hlen
      simp only [hq, List.isEmpty_cons, Bool.false_eq_true, if_false, hlen]
  have hforms : parse_upload f =
      .ok { total_equipment := f.rows.length,
            avg_flowrate := (series_mean (getCol f "Flowrate")).map pyround2,
            avg_pressure := (series_mean (getCol f "Pressure")).map pyround2,
            avg_temperature := (series_mean (getCol f "Temperature")).map pyround2,
            type_distribution := value_counts (getCol f "Type"),
            nameCol := getCol f "Equipment Name", typeCol := getCol f "Type",
            flowCol := getCol f "Flowrate", pressureCol := getCol f "Pressure",
            temperatureCol := getCol f "Temperature", raw := f.rows } := by
    unfold parse_upload
    simp [h1, hm, all_isNum_no_text hflow, all_isNum_no_text hpress, all_isNum_no_text htemp]
  rw [hforms, hmean _ hflow (getCol_length f "Flowrate"),
      hmean _ hpress (getCol_length f "Pressure"),
      hmean _ htemp (getCol_length f "Temperature")]
  rfl

theorem aggregation_means_rounded_half_even_witness :
    sampleFile.rows ≠ [] ∧
      parse_upload sampleFile =
        .ok { total_equipment := sampleFile.rows.length,
              avg_flowrate := some (pyround2
                (((getCol sampleFile "Flowrate").filterMap Cell.asNum).sum / (sampleFile.rows.length : Rat))),
              avg_pressure := some (pyround2
                (((getCol sampleFile "Pressure").filterMap Cell.asNum).sum / (sampleFile.rows.length : Rat))),
              avg_temperature := some (pyround2
                (((getCol sampleFile "Temperature").filterMap Cell.asNum).sum / (sampleFile.rows.length : Rat))),
              type_distribution := value_counts (getCol sampleFile "Type"),
              nameCol := getCol sampleFile "Equipment Name", typeCol := getCol sampleFile "Type",
              flowCol := getCol sampleFile "Flowrate", pressureCol := getCol sampleFile "Pressure",
              temperatureCol := getCol sampleFile "Temperature", raw := sampleFile.rows } :=
  ⟨by decide, aggregation_means_rounded_half_even sampleFile (by decide) (by decide)
    (by decide) (by decide) (by decide) (by decide)⟩

/-- A store with one dataset (id 1, owner 1) and one attached row. -/
def demoDataset : Dataset :=
  { id := 1, owner := 1, filename := "plant.csv", uploaded_at := 100,
    total_equipment := 1, avg_flowrate := some 10, avg_pressure := some 2,
    avg_temperature := some 25, type_distribution := [(.text "Pump", 1)],
    raw_data := [] }

def demoRow : EquipmentRow :=
  { id := 1, dataset := 1, name := .text "P-101", equipment_type := .text "Pump",
    flowrate := some 10, pressure := some 2, temperature := some 25,
    recorded_at := 100 }

def demoStore : Store :=
  { datasets := [demoDataset], equipment := [demoRow],
    nextDatasetId := 2, nextEquipmentId := 2 }

/-- C8: on any dataset owned by the caller, the date-range query with
`start > end` returns the empty row list and the zero-valued summary
(count 0, means 0.0, empty distribution) instead of raising an error. -/
theorem filter_start_after_end_empty (st : Store) (user dsId start stop : Nat)
    (d : Dataset) (hown : getOwned st user dsId = some d) (hr : stop < start) :
    get_equipment_list st user dsId start stop =
      some ([], { count := 0, mean_flowrate := 0, mean_pressure := 0,
                  mean_temperature := 0, distribution := [] }) := by
  unfold get_equipment_list
  rw [hown]
  have hfilter : (datasetEquipment st d.id).filter
      (fun e => start ≤ e.recorded_at && e.recorded_at ≤ stop) = [] := by
    rw [List.filter_eq_nil_iff]
    intro e _
    simp only [Bool.and_eq_true, decide_eq_true_eq, not_and]
    intro h1 h2
    omega
  simp only [Option.map_some', hfilter]
  rfl

theorem filter_start_after_end_empty_witness :
    getOwned demoStore 1 1 = some demoDataset ∧ (20 : Nat) < 30 ∧
      get_equipment_list demoStore 1 1 30 20 =
        some ([], { count := 0, mean_flowrate := 0, mean_pressure := 0,
                    mean_temperature := 0, distribution := [] }) :=
  ⟨rfl, by decide, filter_start_after_end_empty demoStore 1 1 30 20 demoDataset rfl (by decide)⟩

/-- C4: every operation on a dataset whose recorded owner differs from the
requesting owner (which subsumes the dataset id not existing at all)
produces the one `NotFound` outcome — a constant carrying no information,
so the two causes are indistinguishable — and leaves the store unchanged.
The summary, delete and PDF handlers in the source all guard with
`objects.get(id=..., user=request.user)`; the equipment handlers are
modelled from the spec (§4.4, §4.5). -/
theorem ownership_isolation (st : Store) (user dsId eqId start stop now : Nat)
    (nm ty : String) (flow press temp : Rat)
    (h : ∀ d ∈ st.datasets, d.id = dsId → d.owner ≠ user) :
    getOwned st user dsId = none ∧
      get_dataset_summary st user dsId = none ∧
      delete_dataset st user dsId = (false, st) ∧
      get_equipment_list st user dsId start stop = none ∧
      add_equipment st user dsId nm ty flow press temp now = (none, st) ∧
      update_equipment st user dsId eqId nm ty flow press temp = (false, st) ∧
      delete_equipment st user dsId eqId = (false, st) := by
  have hn : getOwned st user dsId = none := by
    unfold getOwned
    rw [List.find?_eq_none]
    intro d hd
    simp only [Bool.and_eq_true, beq_iff_eq, not_and]
    intro hid
    exact fun how => h d hd hid how
  refine ⟨hn, ?_, ?_, ?_, ?_, ?_, ?_⟩ <;>
    simp [get_dataset_summary, delete_dataset, get_equipment_list, add_equipment,
      update_equipment, delete_equipment, hn]

theorem ownership_isolation_witness :
    (∀ d ∈ demoStore.datasets, d.id = 1 → d.owner ≠ 2) ∧
      getOwned demoStore 2 1 = none ∧
      get_dataset_summary demoStore 2 1 = none ∧
      delete_dataset demoStore 2 1 = (false, demoStore) ∧
      get_equipment_list demoStore 2 1 0 1000 = none ∧
      add_equipment demoStore 2 1 "V-1" "Valve" 1 1 1 50 = (none, demoStore) ∧
      update_equipment demoStore 2 1 1 "V-1" "Valve" 1 1 1 = (false, demoStore) ∧
      delete_equipment demoStore 2 1 1 = (false, demoStore) := by
  have h : ∀ d ∈ demoStore.datasets, d.id = 1 → d.owner ≠ 2 := by decide
  obtain ⟨h1, h2, h3, h4, h5, h6, h7⟩ :=
    ownership_isolation demoStore 2 1 1 0 1000 50 "V-1" "Valve" 1 1 1 h
  exact ⟨h, h1, h2, h3, h4, h5, h6, h7⟩

/-- The parsed row count of an upload outcome (`none` unless created). -/
def resultTotal : UploadResult → Option Nat
  | .created _ p => some p.total_equipment
  | _ => none

/-- If neither `Pressure` nor `pressure` occurs among the stripped headers,
the reconciler produces no entry for the canonical `Pressure` field. -/
theorem lookup_actual_pressure_none (hs : List String)
    (hP : hs.contains "Pressure" = false) (hp : hs.contains "pressure" = false) :
    (actual_columns hs).lookup "Pressure" = none := by
  have h5 : List.find? (fun v => hs.contains v) ["Pressure", "pressure"] = none := by
    have h1 : ¬ ("Pressure" ∈ hs) := by simpa using hP
    have h2 : ¬ ("pressure" ∈ hs) := by simpa using hp
    simp [List.find?_cons, h1, h2]
  unfold actual_columns column_mapping
  simp only [List.filterMap_cons, List.filterMap_nil, h5, Option.map_none']
  cases List.find? (fun v => hs.contains v) ["Equipment Name", "equipment_name", "Name", "name"] <;>
    cases List.find? (fun v => hs.contains v) ["Type", "type", "Equipment Type", "equipment_type"] <;>
      cases List.find? (fun v => hs.contains v) ["Flowrate", "flowrate", "Flow Rate", "flow_rate"] <;>
        cases List.find? (fun v => hs.contains v) ["Temperature", "temperature", "Temp", "temp"] <;>
          simp [List.lookup]

/-- Without a `Pressure` synonym among the stripped headers, `Pressure` is
reported missing. -/
theorem pressure_reported_missing (hs : List String)
    (hP : hs.contains "Pressure" = false) (hp : hs.contains "pressure" = false) :
    "Pressure" ∈ missing_columns hs := by
  unfold missing_columns
  rw [List.mem_filter]
  refine ⟨by decide, ?_⟩
  rw [lookup_actual_pressure_none hs hP hp]
  rfl

/-- C6, amended: headers `["equipment_name","Flow Rate","Pressure","Temp","Type"]`
(the recognised synonyms; the spec's `equip_name` is not one — see the
counterexample) with 3 rows of valid numerics ingest successfully with
`count = 3`; and any upload whose stripped headers contain no synonym of
`Pressure` fails with the missing-columns error naming `Pressure`, with the
store untouched. -/
theorem synonym_reconciliation :
    resultTotal (upload_csv emptyStore 1 0 sampleFile).1 = some 3 ∧
      ∀ (st : Store) (user now : Nat) (f : CsvFile),
        strEndsWith f.filename ".csv" = true → f.headers ≠ [] →
        (strippedHeaders f).contains "Pressure" = false →
        (strippedHeaders f).contains "pressure" = false →
        "Pressure" ∈ missing_columns (strippedHeaders f) ∧
          upload_csv st user now f =
            (.missingColumns (missing_columns (strippedHeaders f)), st) := by
  refine ⟨by decide, ?_⟩
  intro st user now f hcsv hh hP hp
  have hmem := pressure_reported_missing _ hP hp
  refine ⟨hmem, ?_⟩
  have h1 : f.headers.isEmpty = false := by
    cases hcl : f.headers with
    | nil => exact absurd hcl hh
    | cons a l => rfl
  have hne : (missing_columns (strippedHeaders f)).isEmpty = false := by
    cases hq : missing_columns (strippedHeaders f) with
    | nil => rw [hq] at hmem; exact absurd hmem (by simp)
    | cons a l => rfl
  unfold upload_csv parse_upload
  simp [hcsv, h1, hne]

/-- A CSV upload with no synonym for `Pressure` among its headers. -/
def noPressFile : CsvFile :=
  { filename := "nopress.csv",
    headers := ["Name", "Flowrate", "Temp", "Type"],
    rows := [[.text "A", .num 1, .num 1, .text "Pump"]] }

theorem synonym_reconciliation_witness :
    strEndsWith noPressFile.filename ".csv" = true ∧
      noPressFile.headers ≠ [] ∧
      (strippedHeaders noPressFile).contains "Pressure" = false ∧
      "Pressure" ∈ missing_columns (strippedHeaders noPressFile) ∧
      upload_csv emptyStore 1 0 noPressFile =
        (.missingColumns (missing_columns (strippedHeaders noPressFile)), emptyStore) := by
  have h := (synonym_reconciliation).2 emptyStore 1 0 noPressFile
    (by decide) (by decide) (by decide) (by decide)
  exact ⟨by decide, by decide, by decide, h.1, h.2⟩

theorem mkEquipmentRows_length (b i now : Nat) (p : ParsedUpload) :
    (mkEquipmentRows b i now p).length = p.total_equipment := by
  simp [mkEquipmentRows]

theorem mkEquipmentRows_dataset (b i now : Nat) (p : ParsedUpload) :
    ∀ e ∈ mkEquipmentRows b i now p, e.dataset = i := by
  intro e he
  simp only [mkEquipmentRows, List.mem_map] at he
  obtain ⟨j, hj, rfl⟩ := he
  rfl

/-- Membership in the doomed-id list, unpacked. -/
theorem mem_doomed_ids {st : Store} {user keep : Nat} {i : Nat} :
    i ∈ doomed_ids st user keep ↔
      ∃ d ∈ st.datasets,
        (d.owner == user && !((keep_ids st user keep).contains d.id)) = true ∧ d.id = i := by
  unfold doomed_ids
  simp only [List.mem_map, List.mem_filter]
  constructor
  · rintro ⟨d, ⟨hd1, hd2⟩, hd3⟩
    exact ⟨d, hd1, hd2, hd3⟩
  · rintro ⟨d, hd1, hd2, hd3⟩
    exact ⟨d, ⟨hd1, hd2⟩, hd3⟩

/-- A dataset that `cleanup_old_uploads` retains has no id on the doomed
list (dataset ids are distinct). -/
theorem kept_not_doomed {st : Store} {user keep : Nat}
    (hwnd : (st.datasets.map (·.id)).Nodup) :
    ∀ dd ∈ st.datasets.filter
        (fun d => !(d.owner == user && !((keep_ids st user keep).contains d.id))),
      dd.id ∉ doomed_ids st user keep := by
  intro dd hdd hcontra
  rw [List.mem_filter] at hdd
  obtain ⟨hdd1, hdd2⟩ := hdd
  obtain ⟨dv, hdv1, hdv2, hdvid⟩ := mem_doomed_ids.mp hcontra
  have : dv = dd := List.inj_on_of_nodup_map hwnd hdv1 hdd1 hdvid
  rw [this] at hdv2
  rw [hdv2] at hdd2
  simp at hdd2

/-- `cleanup_old_uploads` preserves key well-formedness and the row-count
invariant: it deletes whole datasets together with exactly their own rows. -/
theorem cleanup_wf (st : Store) (user keep : Nat) (hw : WfIds st) (hc : WfCounts st) :
    WfIds (cleanup_old_uploads st user keep) ∧ WfCounts (cleanup_old_uploads st user keep) := by
  obtain ⟨hwlt, hwnd, hworph⟩ := hw
  unfold cleanup_old_uploads
  by_cases hsplit :
      keep < (sortByUploadedDesc (st.datasets.filter (fun d => d.owner == user))).length
  · rw [if_pos hsplit]
    refine ⟨⟨?_, ?_, ?_⟩, ?_⟩
    · intro d hd
      rw [List.mem_filter] at hd
      exact hwlt d hd.1
    · exact List.Nodup.sublist
        (List.Sublist.map (fun d : Dataset => d.id) (List.filter_sublist st.datasets)) hwnd
    · intro e he
      rw [List.mem_filter] at he
      obtain ⟨he1, he2⟩ := he
      obtain ⟨d2, hd2, hed⟩ := hworph e he1
      refine ⟨d2, ?_, hed⟩
      rw [List.mem_filter]
      refine ⟨hd2, ?_⟩
      by_contra hcontra
      rw [Bool.not_eq_true] at hcontra
      have hcontra2 : (d2.owner == user && !((keep_ids st user keep).contains d2.id)) = true := by
        simpa using hcontra
      have hmemD : d2.id ∈ doomed_ids st user keep :=
        mem_doomed_ids.mpr ⟨d2, hd2, hcontra2, rfl⟩
      rw [hed] at he2
      simp only [List.elem_eq_mem, Bool.not_eq_true', decide_eq_false_iff_not] at he2
      exact he2 hmemD
    · intro dd hdd
      rw [List.mem_filter] at hdd
      have hnd := kept_not_doomed hwnd dd (List.mem_filter.mpr hdd)
      have heq : datasetEquipment
          { st with
            datasets := st.datasets.filter
              (fun d => !(d.owner == user && !((keep_ids st user keep).contains d.id))),
            equipment := st.equipment.filter
              (fun e => !((doomed_ids st user keep).contains e.dataset)) } dd.id
          = datasetEquipment st dd.id := by
        unfold datasetEquipment
        rw [List.filter_filter]
        apply List.filter_congr
        intro e _
        cases hbe : (e.dataset == dd.id) with
        | false => simp
        | true =>
          rw [beq_iff_eq] at hbe
          rw [hbe]
          simp only [List.elem_eq_mem, hnd, decide_eq_false_iff_not, not_false_eq_true,
            Bool.not_false, Bool.and_true]
          simp [hnd]
      rw [heq]
      exact hc dd hdd.1
  · rw [if_neg hsplit]
    exact ⟨⟨hwlt, hwnd, hworph⟩, hc⟩

/-- A successful `upload_csv` (and any failed one, which leaves the store
untouched) preserves well-formed ids and the row-count invariant: the new
dataset is persisted with `total_equipment` equal to the number of rows
bulk-created for it, existing datasets keep their rows, and the retention
cleanup deletes only whole datasets with their rows. -/
theorem upload_wf (st : Store) (user now : Nat) (f : CsvFile)
    (hw : WfIds st) (hc : WfCounts st) :
    WfIds (upload_csv st user now f).2 ∧ WfCounts (upload_csv st user now f).2 := by
  obtain ⟨hwlt, hwnd, hworph⟩ := hw
  unfold upload_csv
  by_cases hcsv : strEndsWith f.filename ".csv" = true
  · rw [hcsv]
    rw [if_neg (by simp)]
    cases hp : parse_upload f with
    | error e => cases e <;> exact ⟨⟨hwlt, hwnd, hworph⟩, hc⟩
    | ok p =>
      simp only
      apply cleanup_wf
      · refine ⟨?_, ?_, ?_⟩
        · intro dd hdd
          rw [List.mem_append] at hdd
          cases hdd with
          | inl h1 => exact Nat.lt_succ_of_lt (hwlt dd h1)
          | inr h2 =>
            rw [List.mem_singleton] at h2
            rw [h2]
            exact Nat.lt_succ_self _
        · rw [List.map_append, List.nodup_append]
          refine ⟨hwnd, List.nodup_singleton _, ?_⟩
          intro a ha hb
          rw [List.mem_map] at ha
          obtain ⟨dd, hdd, hda⟩ := ha
          rw [List.map_singleton, List.mem_singleton] at hb
          rw [hb] at hda
          have hda2 : dd.id = st.nextDatasetId := hda
          have := hwlt dd hdd
          omega
        · intro e he
          rw [List.mem_append] at he
          cases he with
          | inl h1 =>
            obtain ⟨d2, hd2, hed⟩ := hworph e h1
            exact ⟨d2, List.mem_append_left _ hd2, hed⟩
          | inr h2 =>
            refine ⟨_, List.mem_append_right _ (List.mem_singleton_self _), ?_⟩
            exact mkEquipmentRows_dataset _ _ _ _ e h2
      · intro dd hdd
        rw [List.mem_append] at hdd
        cases hdd with
        | inl h1 =>
          unfold datasetEquipment
          simp only [List.filter_append]
          have hrows : (mkEquipmentRows st.nextEquipmentId st.nextDatasetId now p).filter
              (fun e => e.dataset == dd.id) = [] := by
            rw [List.filter_eq_nil_iff]
            intro e he
            have hds := mkEquipmentRows_dataset _ _ _ _ e he
            have hlt := hwlt dd h1
            simp only [hds, beq_eq_false_iff_ne, ne_eq, Bool.not_eq_true]
            omega
          rw [hrows, List.append_nil]
          exact hc dd h1
        | inr h2 =>
          rw [List.mem_singleton] at h2
          rw [h2]
          unfold datasetEquipment
          simp only [List.filter_append]
          have hold : st.equipment.filter (fun e => e.dataset == st.nextDatasetId) = [] := by
            rw [List.filter_eq_nil_iff]
            intro e he
            obtain ⟨d2, hd2, hed⟩ := hworph e he
            have hlt := hwlt d2 hd2
            simp only [hed, beq_eq_false_iff_ne, ne_eq, Bool.not_eq_true]
            omega
          have hnew : (mkEquipmentRows st.nextEquipmentId st.nextDatasetId now p).filter
              (fun e => e.dataset == st.nextDatasetId) =
              mkEquipmentRows st.nextEquipmentId st.nextDatasetId now p := by
            rw [List.filter_eq_self]
            intro e he
            have hds := mkEquipmentRows_dataset _ _ _ _ e he
            simp [hds]
          rw [hold, hnew, List.nil_append, mkEquipmentRows_length]
  · rw [Bool.not_eq_true] at hcsv
    rw [hcsv]
    rw [if_pos (by simp)]
    exact ⟨⟨hwlt, hwnd, hworph⟩, hc⟩

theorem getOwned_some {st : Store} {user dsId : Nat} {d : Dataset}
    (h : getOwned st user dsId = some d) :
    d ∈ st.datasets ∧ d.id = dsId ∧ d.owner = user := by
  unfold getOwned at h
  have hmem := List.mem_of_find?_eq_some h
  have hpred := List.find?_some h
  simp only [Bool.and_eq_true, beq_iff_eq] at hpred
  exact ⟨hmem, hpred.1, hpred.2⟩

theorem datasetEquipment_recompute (st : Store) (i j : Nat) :
    datasetEquipment (recompute_aggregates st i) j = datasetEquipment st j := rfl

/-- Recomputing a dataset's aggregates from its complete attached row set
makes its stored count correct by construction; other datasets just need
their counts to have been correct already. -/
theorem wfCounts_recompute (st : Store) (i : Nat)
    (h : ∀ dd ∈ st.datasets, dd.id ≠ i →
      dd.total_equipment = (datasetEquipment st dd.id).length) :
    WfCounts (recompute_aggregates st i) := by
  intro dd' hdd'
  rw [datasetEquipment_recompute]
  unfold recompute_aggregates at hdd'
  simp only [List.mem_map] at hdd'
  obtain ⟨dd, hdd, hmap⟩ := hdd'
  rw [← hmap]
  by_cases hi : (dd.id == i) = true
  · rw [if_pos hi]
    rw [beq_iff_eq] at hi
    simp only [hi]
    rfl
  · rw [if_neg hi]
    rw [beq_iff_eq] at hi
    exact h dd hdd hi

theorem add_equipment_counts (st : Store) (user dsId now : Nat) (nm ty : String)
    (flow press temp : Rat) (hc : WfCounts st) :
    WfCounts (add_equipment st user dsId nm ty flow press temp now).2 := by
  unfold add_equipment
  cases hg : getOwned st user dsId with
  | none => exact hc
  | some d =>
    simp only
    apply wfCounts_recompute
    intro dd hdd hne
    unfold datasetEquipment
    simp only [List.filter_append]
    have hsingle : List.filter (fun e => e.dataset == dd.id)
        [({ id := st.nextEquipmentId, dataset := d.id, name := .text nm,
            equipment_type := .text ty, flowrate := some flow,
            pressure := some press, temperature := some temp,
            recorded_at := now } : EquipmentRow)] = [] := by
      rw [List.filter_eq_nil_iff]
      intro e he
      rw [List.mem_singleton] at he
      rw [he]
      simp only [beq_eq_false_iff_ne, ne_eq, Bool.not_eq_true]
      exact fun heq => hne (heq.symm)
    rw [hsingle, List.append_nil]
    exact hc dd hdd

theorem length_filter_dataset_map (l : List EquipmentRow) (g : EquipmentRow → EquipmentRow)
    (hg : ∀ e, (g e).dataset = e.dataset) (j : Nat) :
    ((l.map g).filter (fun e => e.dataset == j)).length =
      (l.filter (fun e => e.dataset == j)).length := by
  rw [List.filter_map, List.length_map]
  congr 1
  apply List.filter_congr
  intro e _
  simp only [Function.comp_apply]
  rw [hg]

theorem update_equipment_counts (st : Store) (user dsId eqId : Nat) (nm ty : String)
    (flow press temp : Rat) (hc : WfCounts st) :
    WfCounts (update_equipment st user dsId eqId nm ty flow press temp).2 := by
  unfold update_equipment
  cases hg : getOwned st user dsId with
  | none => exact hc
  | some d =>
    simp only
    by_cases hex : ((datasetEquipment st d.id).any (fun e => e.id == eqId)) = true
    · rw [if_pos hex]
      apply wfCounts_recompute
      intro dd hdd hne
      unfold datasetEquipment
      simp only
      rw [length_filter_dataset_map]
      · exact hc dd hdd
      · intro e
        by_cases hcond : (e.id == eqId && e.dataset == d.id) = true
        · rw [if_pos hcond]
        · rw [if_neg hcond]
    · rw [if_neg hex]
      exact hc

theorem delete_equipment_counts (st : Store) (user dsId eqId : Nat) (hc : WfCounts st) :
    WfCounts (delete_equipment st user dsId eqId).2 := by
  unfold delete_equipment
  cases hg : getOwned st user dsId with
  | none => exact hc
  | some d =>
    simp only
    by_cases hex : ((datasetEquipment st d.id).any (fun e => e.id == eqId)) = true
    · rw [if_pos hex]
      apply wfCounts_recompute
      intro dd hdd hne
      unfold datasetEquipment
      rw [List.filter_filter]
      have hcongr : st.equipment.filter (fun e =>
          e.dataset == dd.id && !(e.id == eqId && e.dataset == d.id)) =
          st.equipment.filter (fun e => e.dataset == dd.id) := by
        apply List.filter_congr
        intro e _
        cases hbe : (e.dataset == dd.id) with
        | false => simp
        | true =>
          rw [beq_iff_eq] at hbe
          have : (e.dataset == d.id) = false := by
            simp only [beq_eq_false_iff_ne, ne_eq]
            rw [hbe]
            exact fun heq => hne heq
          simp [this]
      rw [hcongr]
      exact hc dd hdd
    · rw [if_neg hex]
      exact hc

/-- C2: immediately after a create (`upload_csv`) and after each of the
spec-modelled row mutations (`add_equipment`, the update and delete
branches of `equipment_detail`), every persisted dataset's
`total_equipment` equals the number of equipment rows attached to it. -/
theorem row_count_matches_attached_rows (st : Store) (user now dsId eqId now2 : Nat)
    (f : CsvFile) (nm ty : String) (flow press temp : Rat)
    (hw : WfIds st) (hc : WfCounts st) :
    WfCounts (upload_csv st user now f).2 ∧
      WfCounts (add_equipment st user dsId nm ty flow press temp now2).2 ∧
      WfCounts (update_equipment st user dsId eqId nm ty flow press temp).2 ∧
      WfCounts (delete_equipment st user dsId eqId).2 :=
  ⟨(upload_wf st user now f hw hc).2,
    add_equipment_counts st user dsId now2 nm ty flow press temp hc,
    update_equipment_counts st user dsId eqId nm ty flow press temp hc,
    delete_equipment_counts st user dsId eqId hc⟩

theorem row_count_matches_attached_rows_witness :
    WfIds demoStore ∧ WfCounts demoStore ∧
      (WfCounts (upload_csv demoStore 1 200 sampleFile).2 ∧
        WfCounts (add_equipment demoStore 1 1 "V-1" "Valve" 7 3 50 200).2 ∧
        WfCounts (update_equipment demoStore 1 1 1 "V-1" "Valve" 7 3 50).2 ∧
        WfCounts (delete_equipment demoStore 1 1 1).2) :=
  ⟨by decide, by decide,
    row_count_matches_attached_rows demoStore 1 200 1 1 200 sampleFile "V-1" "Valve"
      7 3 50 (by decide) (by decide)⟩

/-! ## Retention policy (claim C3) -/

/-- The owner's datasets in table order (`filter(user=user)`). -/
def ownerDatasets (st : Store) (u : Nat) : List Dataset :=
  st.datasets.filter (fun d => d.owner == u)

/-- Iterated uploads: the store after processing a list of
(timestamp, file) requests for one user. -/
def creates (s0 : Store) (u : Nat) : List (Nat × CsvFile) → Store
  | [] => s0
  | op :: rest => creates (upload_csv s0 u op.1 op.2).2 u rest

/-- The (id, uploaded_at) pairs that consecutive successful creates assign,
starting from the auto-increment value `base`. -/
def idTimePairs (base : Nat) : List (Nat × CsvFile) → List (Nat × Nat)
  | [] => []
  | op :: rest => (base, op.1) :: idTimePairs (base + 1) rest

/-- The last `n` elements of a list. -/
def lastN (n : Nat) (l : List α) : List α := l.drop (l.length - n)

theorem lastN_of_le {l : List α} {n : Nat} (h : l.length ≤ n) : lastN n l = l := by
  unfold lastN
  rw [Nat.sub_eq_zero_of_le h]
  rfl

theorem lastN_cons_of_le {l : List α} {n : Nat} (a : α) (h : n ≤ l.length) :
    lastN n (a :: l) = lastN n l := by
  unfold lastN
  rw [List.length_cons, show l.length + 1 - n = (l.length - n) + 1 by omega]
  rfl

theorem idTimePairs_length (base : Nat) (ops : List (Nat × CsvFile)) :
    (idTimePairs base ops).length = ops.length := by
  induction ops generalizing base with
  | nil => rfl
  | cons op rest ih => simp [idTimePairs, ih]

theorem length_sortByUploadedDesc (l : List Dataset) :
    (sortByUploadedDesc l).length = l.length := by
  unfold sortByUploadedDesc
  exact List.length_insertionSort _ l

/-- `order_by('-uploaded_at')` on a list whose timestamps are strictly
increasing in table order is exactly the reversed list. -/
theorem sortByUploadedDesc_of_ascending (l : List Dataset)
    (h : l.Pairwise (fun a b => a.uploaded_at < b.uploaded_at)) :
    sortByUploadedDesc l = l.reverse := by
  haveI i1 : IsTotal Dataset (fun a b => b.uploaded_at ≤ a.uploaded_at) :=
    ⟨fun a b => (Nat.le_total b.uploaded_at a.uploaded_at)⟩
  haveI i2 : IsTrans Dataset (fun a b => b.uploaded_at ≤ a.uploaded_at) :=
    ⟨fun a b c hab hbc => Nat.le_trans hbc hab⟩
  haveI i3 : IsAntisymm Dataset (fun a b => b.uploaded_at < a.uploaded_at) :=
    ⟨fun a b h1 h2 => absurd h2 (Nat.lt_asymm h1)⟩
  unfold sortByUploadedDesc
  have hs1 : (List.insertionSort (fun a b => b.uploaded_at ≤ a.uploaded_at) l).Pairwise
      (fun a b => b.uploaded_at ≤ a.uploaded_at) := List.sorted_insertionSort _ l
  have hnel : l.Pairwise (fun a b => a.uploaded_at ≠ b.uploaded_at) :=
    h.imp (fun hab => Nat.ne_of_lt hab)
  have hne : (List.insertionSort (fun a b => b.uploaded_at ≤ a.uploaded_at) l).Pairwise
      (fun a b => a.uploaded_at ≠ b.uploaded_at) :=
    ((List.perm_insertionSort (fun a b => b.uploaded_at ≤ a.uploaded_at) l).pairwise_iff
      (fun hxy => hxy.symm)).mpr hnel
  have hs1' : (List.insertionSort (fun a b => b.uploaded_at ≤ a.uploaded_at) l).Pairwise
      (fun a b => b.uploaded_at < a.uploaded_at) :=
    (hs1.and hne).imp (fun hab => Nat.lt_of_le_of_ne hab.1 (fun he => hab.2 he.symm))
  have hs2' : l.reverse.Pairwise (fun a b => b.uploaded_at < a.uploaded_at) := by
    rw [List.pairwise_reverse]
    exact h
  exact List.eq_of_perm_of_sorted
    ((List.perm_insertionSort _ l).trans (List.reverse_perm l).symm) hs1' hs2'

theorem cleanup_nextDatasetId (st : Store) (u k : Nat) :
    (cleanup_old_uploads st u k).nextDatasetId = st.nextDatasetId := by
  unfold cleanup_old_uploads
  split <;> rfl

/-- The dataset record a successful `upload_csv` persists. -/
def newDataset (st : Store) (u now : Nat) (f : CsvFile) (p : ParsedUpload) : Dataset :=
  { id := st.nextDatasetId, owner := u, filename := f.filename, uploaded_at := now,
    total_equipment := p.total_equipment, avg_flowrate := p.avg_flowrate,
    avg_pressure := p.avg_pressure, avg_temperature := p.avg_temperature,
    type_distribution := p.type_distribution, raw_data := p.raw }

/-- The store transformation of a successful `upload_csv`, written out. -/
theorem upload_csv_ok (st : Store) (u now : Nat) (f : CsvFile) (p : ParsedUpload)
    (hcsv : strEndsWith f.filename ".csv" = true) (hp : parse_upload f = .ok p) :
    upload_csv st u now f =
      (.created st.nextDatasetId p,
        cleanup_old_uploads
          { datasets := st.datasets ++ [newDataset st u now f p],
            equipment := st.equipment ++
              mkEquipmentRows st.nextEquipmentId st.nextDatasetId now p,
            nextDatasetId := st.nextDatasetId + 1,
            nextEquipmentId := st.nextEquipmentId + p.total_equipment } u 5) := by
  unfold upload_csv
  rw [hcsv]
  rw [if_neg (by simp)]
  rw [hp]
  rfl

/-- How one successful upload changes the owner's dataset list: the new
dataset is appended, and when the owner already had five datasets the
oldest one (the head of the list - timestamps are strictly increasing in
table order) is deleted by the retention cleanup. -/
theorem upload_step_owner (st : Store) (u now : Nat) (f : CsvFile) (p : ParsedUpload)
    (hcsv : strEndsWith f.filename ".csv" = true)
    (hp : parse_upload f = .ok p)
    (hw : WfIds st)
    (hasc : (ownerDatasets st u).Pairwise (fun a b => a.uploaded_at < b.uploaded_at))
    (hlen : (ownerDatasets st u).length ≤ 5)
    (htime : ∀ d ∈ ownerDatasets st u, d.uploaded_at < now) :
    ownerDatasets (upload_csv st u now f).2 u =
      (if (ownerDatasets st u).length < 5 then ownerDatasets st u
        else (ownerDatasets st u).drop 1) ++ [newDataset st u now f p] ∧
      (upload_csv st u now f).2.nextDatasetId = st.nextDatasetId + 1 := by
  obtain ⟨hwlt, hwnd, hworph⟩ := hw
  rw [upload_csv_ok st u now f p hcsv hp]
  set nd := newDataset st u now f p with hnd
  set st2 : Store :=
    { datasets := st.datasets ++ [nd],
      equipment := st.equipment ++ mkEquipmentRows st.nextEquipmentId st.nextDatasetId now p,
      nextDatasetId := st.nextDatasetId + 1,
      nextEquipmentId := st.nextEquipmentId + p.total_equipment } with hst2
  have hndo : (nd.owner == u) = true := by rw [hnd]; simp [newDataset]
  have hndt : nd.uploaded_at = now := rfl
  have hndid : nd.id = st.nextDatasetId := rfl
  have hfil : st2.datasets.filter (fun d => d.owner == u) = ownerDatasets st u ++ [nd] := by
    rw [hst2]
    simp only [List.filter_append]
    have h2 : List.filter (fun d => d.owner == u) [nd] = [nd] := by
      simp [hndo]
    rw [h2]
    rfl
  have hlen2 : (sortByUploadedDesc (st2.datasets.filter (fun d => d.owner == u))).length
      = (ownerDatasets st u).length + 1 := by
    rw [length_sortByUploadedDesc, hfil, List.length_append, List.length_singleton]
  unfold cleanup_old_uploads
  by_cases hcase : (ownerDatasets st u).length < 5
  · rw [if_neg (by rw [hlen2]; omega)]
    rw [if_pos hcase]
    exact ⟨hfil, rfl⟩
  · have hlen5 : (ownerDatasets st u).length = 5 := by omega
    rw [if_pos (by rw [hlen2, hlen5]; omega)]
    rw [if_neg hcase]
    obtain ⟨o0, od', hod⟩ : ∃ o0 od', ownerDatasets st u = o0 :: od' := by
      cases hq : ownerDatasets st u with
      | nil => rw [hq] at hlen5; simp at hlen5
      | cons a l => exact ⟨a, l, rfl⟩
    have hlo : od'.length = 4 := by
      rw [hod] at hlen5
      simpa using hlen5
    have hpw : (ownerDatasets st u ++ [nd]).Pairwise
        (fun a b => a.uploaded_at < b.uploaded_at) := by
      rw [List.pairwise_append]
      refine ⟨hasc, List.pairwise_singleton _ _, ?_⟩
      intro a ha b hb
      rw [List.mem_singleton] at hb
      rw [hb, hndt]
      exact htime a ha
    have hsort : sortByUploadedDesc (st2.datasets.filter (fun d => d.owner == u))
        = nd :: (ownerDatasets st u).reverse := by
      rw [hfil, sortByUploadedDesc_of_ascending _ hpw, List.reverse_append]
      rfl
    have hkeep : keep_ids st2 u 5 = nd.id :: (od'.reverse.map (·.id)) := by
      unfold keep_ids
      rw [hsort, hod]
      have hrev : (o0 :: od').reverse = od'.reverse ++ [o0] := by
        simp [List.reverse_cons]
      rw [hrev]
      have hlo4 : od'.reverse.length = 4 := by simpa using hlo
      rw [show (5 : Nat) = 4 + 1 from rfl, List.take_succ_cons, ← hlo4, List.take_left]
      rfl
    have hodnodup : ((o0 :: od').map (·.id)).Nodup := by
      rw [← hod]
      exact List.Nodup.sublist
        (List.Sublist.map (fun d : Dataset => d.id) (List.filter_sublist st.datasets)) hwnd
    have hmemsub : ∀ x ∈ ownerDatasets st u, x ∈ st.datasets := by
      intro x hx
      exact (List.mem_filter.mp hx).1
    have ho0lt : o0.id < st.nextDatasetId := by
      apply hwlt
      apply hmemsub
      rw [hod]
      exact List.mem_cons_self o0 od'
    have hk0 : (keep_ids st2 u 5).contains o0.id = false := by
      rw [hkeep]
      simp only [List.elem_eq_mem, decide_eq_false_iff_not, List.mem_cons, List.mem_map,
        List.mem_reverse, not_or, not_exists, not_and]
      constructor
      · rw [hndid]
        omega
      · intro x hx hid
        have hnodup2 := hodnodup
        rw [List.map_cons, List.nodup_cons] at hnodup2
        exact hnodup2.1 (hid ▸ List.mem_map_of_mem (fun d : Dataset => d.id) hx)
    have hkmem : ∀ x ∈ od' ++ [nd], (keep_ids st2 u 5).contains x.id = true := by
      intro x hx
      rw [hkeep]
      simp only [List.elem_eq_mem, decide_eq_true_eq, List.mem_cons, List.mem_map,
        List.mem_reverse]
      rw [List.mem_append] at hx
      cases hx with
      | inl h1 => exact Or.inr ⟨x, h1, rfl⟩
      | inr h2 =>
        rw [List.mem_singleton] at h2
        rw [h2]
        exact Or.inl rfl
    have howner : ∀ x ∈ ownerDatasets st u, (x.owner == u) = true := by
      intro x hx
      exact (List.mem_filter.mp hx).2
    constructor
    · show (st2.datasets.filter _).filter (fun d => d.owner == u) = _
      have hcomm : (st2.datasets.filter
            (fun d => !(d.owner == u && !((keep_ids st2 u 5).contains d.id)))).filter
            (fun d => d.owner == u)
          = (st2.datasets.filter (fun d => d.owner == u)).filter
            (fun d => !(d.owner == u && !((keep_ids st2 u 5).contains d.id))) := by
        rw [List.filter_filter, List.filter_filter]
        apply List.filter_congr
        intro e _
        rw [Bool.and_comm]
      have hpredo0 : (!(o0.owner == u && !((keep_ids st2 u 5).contains o0.id))) = false := by
        rw [howner o0 (by rw [hod]; exact List.mem_cons_self o0 od'), hk0]
        simp
      have hrest : (od' ++ [nd]).filter
          (fun d => !(d.owner == u && !((keep_ids st2 u 5).contains d.id))) = od' ++ [nd] := by
        rw [List.filter_eq_self]
        intro x hx
        rw [hkmem x hx]
        simp
      rw [hcomm, hfil, hod, List.cons_append]
      simp only [List.filter_cons, hpredo0, Bool.false_eq_true, if_false, hrest]
      rfl
    · rfl

/-- Induction core for the retention policy: folding successful uploads
with strictly increasing timestamps keeps, for the owner, exactly the last
five assigned (id, uploaded_at) pairs. -/
theorem retention_aux (ops : List (Nat × CsvFile)) :
    ∀ (st : Store) (u : Nat),
      WfIds st → WfCounts st →
      (∀ op ∈ ops, strEndsWith op.2.filename ".csv" = true ∧ (parse_upload op.2).isOk = true) →
      (ops.map (fun o => o.1)).Chain' (· < ·) →
      (ownerDatasets st u).Pairwise (fun a b => a.uploaded_at < b.uploaded_at) →
      (ownerDatasets st u).length ≤ 5 →
      (∀ d ∈ ownerDatasets st u, ∀ o ∈ ops, d.uploaded_at < o.1) →
      WfIds (creates st u ops) ∧ WfCounts (creates st u ops) ∧
        (ownerDatasets (creates st u ops) u).map (fun d => (d.id, d.uploaded_at))
          = lastN 5 ((ownerDatasets st u).map (fun d => (d.id, d.uploaded_at))
              ++ idTimePairs st.nextDatasetId ops) := by
  induction ops with
  | nil =>
    intro st u hw hc _ _ _ hlen _
    refine ⟨hw, hc, ?_⟩
    rw [show idTimePairs st.nextDatasetId [] = [] from rfl, List.append_nil,
      lastN_of_le (by rw [List.length_map]; exact hlen)]
    rfl
  | cons op rest ih =>
    intro st u hw hc hops hchain hasc hlen htime
    have hop := hops op (List.mem_cons_self op rest)
    obtain ⟨p, hp⟩ : ∃ p, parse_upload op.2 = .ok p := by
      cases hq : parse_upload op.2 with
      | ok q => exact ⟨q, rfl⟩
      | error e =>
        rw [hq] at hop
        simp [Except.isOk, Except.toBool] at hop
    have hstep := upload_step_owner st u op.1 op.2 p hop.1 hp hw hasc hlen
      (fun d hd => htime d hd op (List.mem_cons_self op rest))
    have hwf2 := upload_wf st u op.1 op.2 hw hc
    have hchain2 := hchain
    rw [List.map_cons] at hchain2
    have hheadlt : ∀ o2 ∈ rest, op.1 < o2.1 := by
      rw [List.chain'_iff_pairwise] at hchain2
      intro o2 ho2
      exact (List.pairwise_cons.mp hchain2).1 o2.1 (List.mem_map_of_mem _ ho2)
    have hops' : ∀ o2 ∈ rest,
        strEndsWith o2.2.filename ".csv" = true ∧ (parse_upload o2.2).isOk = true :=
      fun o2 h => hops o2 (List.mem_cons_of_mem op h)
    have hchain' : (rest.map (fun o => o.1)).Chain' (· < ·) := hchain2.tail
    set st' := (upload_csv st u op.1 op.2).2 with hst'
    have hnext' : st'.nextDatasetId = st.nextDatasetId + 1 := hstep.2
    have hcreates : creates st u (op :: rest) = creates st' u rest := rfl
    by_cases hcase5 : (ownerDatasets st u).length < 5
    · have h1 := hstep.1
      rw [if_pos hcase5] at h1
      have hasc' : (ownerDatasets st' u).Pairwise
          (fun a b => a.uploaded_at < b.uploaded_at) := by
        rw [h1, List.pairwise_append]
        refine ⟨hasc, List.pairwise_singleton _ _, ?_⟩
        intro a ha b hb
        rw [List.mem_singleton] at hb
        rw [hb]
        exact htime a ha op (List.mem_cons_self op rest)
      have hlen' : (ownerDatasets st' u).length ≤ 5 := by
        rw [h1, List.length_append, List.length_singleton]
        omega
      have htime' : ∀ d ∈ ownerDatasets st' u, ∀ o2 ∈ rest, d.uploaded_at < o2.1 := by
        intro d hd o2 ho2
        rw [h1, List.mem_append] at hd
        cases hd with
        | inl hold => exact htime d hold o2 (List.mem_cons_of_mem op ho2)
        | inr hnew =>
          rw [List.mem_singleton] at hnew
          rw [hnew]
          exact hheadlt o2 ho2
      have IH := ih st' u hwf2.1 hwf2.2 hops' hchain' hasc' hlen' htime'
      refine ⟨IH.1, IH.2.1, ?_⟩
      rw [hcreates, IH.2.2, h1, hnext']
      rw [List.map_append,
        show ([newDataset st u op.1 op.2 p].map (fun d => (d.id, d.uploaded_at)))
          = [(st.nextDatasetId, op.1)] from rfl,
        show idTimePairs st.nextDatasetId (op :: rest)
          = (st.nextDatasetId, op.1) :: idTimePairs (st.nextDatasetId + 1) rest from rfl,
        List.append_assoc, List.singleton_append]
    · have hlen5 : (ownerDatasets st u).length = 5 := by omega
      obtain ⟨o0, od2, hodc⟩ : ∃ o0 od2, ownerDatasets st u = o0 :: od2 := by
        cases hq : ownerDatasets st u with
        | nil => rw [hq] at hlen5; simp at hlen5
        | cons a l => exact ⟨a, l, rfl⟩
      have hlo : od2.length = 4 := by
        rw [hodc] at hlen5
        simpa using hlen5
      have h1 := hstep.1
      rw [if_neg hcase5, hodc] at h1
      rw [List.drop_one, List.tail_cons] at h1
      have hod2sub : ∀ d ∈ od2, d ∈ ownerDatasets st u := by
        intro d hd
        rw [hodc]
        exact List.mem_cons_of_mem o0 hd
      have hasc' : (ownerDatasets st' u).Pairwise
          (fun a b => a.uploaded_at < b.uploaded_at) := by
        rw [h1, List.pairwise_append]
        refine ⟨?_, List.pairwise_singleton _ _, ?_⟩
        · have := hasc
          rw [hodc, List.pairwise_cons] at this
          exact this.2
        · intro a ha b hb
          rw [List.mem_singleton] at hb
          rw [hb]
          exact htime a (hod2sub a ha) op (List.mem_cons_self op rest)
      have hlen' : (ownerDatasets st' u).length ≤ 5 := by
        rw [h1, List.length_append, List.length_singleton, hlo]
      have htime' : ∀ d ∈ ownerDatasets st' u, ∀ o2 ∈ rest, d.uploaded_at < o2.1 := by
        intro d hd o2 ho2
        rw [h1, List.mem_append] at hd
        cases hd with
        | inl hold => exact htime d (hod2sub d hold) o2 (List.mem_cons_of_mem op ho2)
        | inr hnew =>
          rw [List.mem_singleton] at hnew
          rw [hnew]
          exact hheadlt o2 ho2
      have IH := ih st' u hwf2.1 hwf2.2 hops' hchain' hasc' hlen' htime'
      refine ⟨IH.1, IH.2.1, ?_⟩
      rw [hcreates, IH.2.2, h1, hnext']
      rw [List.map_append,
        show ([newDataset st u op.1 op.2 p].map (fun d => (d.id, d.uploaded_at)))
          = [(st.nextDatasetId, op.1)] from rfl,
        show idTimePairs st.nextDatasetId (op :: rest)
          = (st.nextDatasetId, op.1) :: idTimePairs (st.nextDatasetId + 1) rest from rfl,
        hodc, List.map_cons, List.cons_append]
      rw [lastN_cons_of_le _ (by
        rw [List.length_append, List.length_map]
        simp [hlo]
        omega)]
      rw [List.append_assoc, List.singleton_append]

/-- Six uploads by one user whose `auto_now_add` timestamps all coincide. -/
def sixTiedOps : List (Nat × CsvFile) :=
  [(0, sampleFile), (0, sampleFile), (0, sampleFile),
   (0, sampleFile), (0, sampleFile), (0, sampleFile)]

/-- C3, counterexample: the tie-break is NOT "higher identifier is newer".
`order_by('-uploaded_at')` has no secondary sort key, so datasets with
equal timestamps come back in table order (lowest id first) and
`ids_to_keep` takes the five lowest ids.  After six same-timestamp uploads
the store retains ids 1-5 and has deleted id 6 — the dataset that the
claim's tie-break designates as the newest — so the retained set is not
the five most recently created under the claimed ordering. -/
theorem retention_tie_keeps_lowest_ids :
    ((creates emptyStore 1 sixTiedOps).datasets.map (fun d => d.id)) = [1, 2, 3, 4, 5] ∧
      ((creates emptyStore 1 sixTiedOps).datasets.map (fun d => d.id)) ≠ [2, 3, 4, 5, 6] := by
  constructor
  · decide
  · decide

/-- C3, amended: after any successful create only the `N = 5`
most-recently-created datasets of the owner remain, with their rows
(deleted datasets leave no rows behind) — provided creation timestamps are
strictly increasing.  (With coinciding timestamps the code keeps the five
earliest-inserted, lowest-id datasets instead — see the counterexample.)
For every owner who starts with no datasets and performs `5 + k` (k ≥ 1)
successful creates with no deletions in between, exactly 5 remain and
their (id, uploaded_at) pairs are those of the last 5 creates. -/
theorem retention_keeps_last_five (ops : List (Nat × CsvFile)) (s0 : Store) (u k : Nat)
    (hw : WfIds s0) (hc : WfCounts s0)
    (h0 : ownerDatasets s0 u = [])
    (hops : ∀ op ∈ ops, strEndsWith op.2.filename ".csv" = true ∧ (parse_upload op.2).isOk = true)
    (htimes : (ops.map (fun o => o.1)).Chain' (· < ·))
    (hlen : ops.length = 5 + k) (_hk : 1 ≤ k) :
    (ownerDatasets (creates s0 u ops) u).map (fun d => (d.id, d.uploaded_at))
        = (idTimePairs s0.nextDatasetId ops).drop k ∧
      (ownerDatasets (creates s0 u ops) u).length = 5 ∧
      (∀ e ∈ (creates s0 u ops).equipment, ∃ d ∈ (creates s0 u ops).datasets,
        e.dataset = d.id) := by
  have aux := retention_aux ops s0 u hw hc hops htimes
    (by rw [h0]; exact List.Pairwise.nil)
    (by rw [h0]; exact Nat.zero_le 5)
    (by rw [h0]; intro d hd; exact absurd hd (List.not_mem_nil d))
  have hpairs : (ownerDatasets (creates s0 u ops) u).map (fun d => (d.id, d.uploaded_at))
      = (idTimePairs s0.nextDatasetId ops).drop k := by
    rw [aux.2.2, h0]
    rw [List.map_nil, List.nil_append]
    unfold lastN
    rw [idTimePairs_length, hlen, Nat.add_sub_cancel_left]
  refine ⟨hpairs, ?_, aux.1.2.2⟩
  have := congrArg List.length hpairs
  rw [List.length_map, List.length_drop, idTimePairs_length, hlen] at this
  rw [this]
  omega

/-- Seven successful uploads with strictly increasing timestamps. -/
def sevenOps : List (Nat × CsvFile) :=
  [(10, sampleFile), (20, sampleFile), (30, sampleFile), (40, sampleFile),
   (50, sampleFile), (60, sampleFile), (70, sampleFile)]

theorem retention_keeps_last_five_witness :
    WfIds emptyStore ∧ ownerDatasets emptyStore 1 = [] ∧
      sevenOps.length = 5 + 2 ∧
      ((ownerDatasets (creates emptyStore 1 sevenOps) 1).map
          (fun d => (d.id, d.uploaded_at))
        = (idTimePairs emptyStore.nextDatasetId sevenOps).drop 2 ∧
        (ownerDatasets (creates emptyStore 1 sevenOps) 1).length = 5 ∧
        (∀ e ∈ (creates emptyStore 1 sevenOps).equipment,
          ∃ d ∈ (creates emptyStore 1 sevenOps).datasets, e.dataset = d.id)) :=
  ⟨by decide, by decide, by decide,
    retention_keeps_last_five sevenOps emptyStore 1 2 (by decide) (by decide) (by decide)
      (by decide) (by simp [sevenOps]) (by decide) (by decide)⟩
